import Mathlib

/-!
Verification development for the meme-token trading bot.

Each module of the source tree is shallowly embedded as pure Lean
definitions: Python floats are modelled as exact rationals, wall-clock
datetimes as integers (seconds), dictionaries as association lists, and
the fallible RPC surface as explicit environment/outcome parameters.
The definitions follow the corresponding Python functions statement by
statement; theorems about the claims of the specification follow at the
end of the file.
-/

namespace Meme

/-- Lookup of the value bound to key `k` in an association list
(modelling Python dictionary access). -/
def findVal {α : Type} (m : List (String × α)) (k : String) : Option α :=
  match m with
  | [] => none
  | (k', v) :: t => if k' = k then some v else findVal t k

/-- Lookup in an association list with a default value (modelling
`defaultdict` access). -/
def lookupD {α : Type} (m : List (String × α)) (k : String) (d : α) : α :=
  (findVal m k).getD d

/-- Replace the value stored at key `k` (no-op when the key is absent),
modelling in-place mutation of the stored value. -/
def updateKey {α : Type} (m : List (String × α)) (k : String) (f : α → α) :
    List (String × α) :=
  match m with
  | [] => []
  | (k', v) :: t =>
      if k' = k then (k', f v) :: updateKey t k f else (k', v) :: updateKey t k f

/-- Store `v` at key `k`, overwriting an existing binding or appending a
new one (modelling Python dictionary assignment, which preserves
insertion order). -/
def setKey {α : Type} (m : List (String × α)) (k : String) (v : α) :
    List (String × α) :=
  match m with
  | [] => [(k, v)]
  | (k', v') :: t => if k' = k then (k, v) :: t else (k', v') :: setKey t k v

/-- Remove the binding at key `k`. -/
def removeKey {α : Type} (m : List (String × α)) (k : String) :
    List (String × α) :=
  m.filter (fun p => decide (p.1 ≠ k))

/-! ## Risk Manager (src/core/risk.py) -/

namespace Risk

/-- State of `RiskManager` (src/core/risk.py).  Dates are day ordinals,
BNB amounts are exact rationals standing for the Python floats. -/
structure RiskState where
  max_daily_trades : Nat
  max_daily_investment : ℚ
  max_concurrent_positions : Nat
  daily_trades : Nat
  daily_investment : ℚ
  last_reset_date : Nat
  active_positions : List String
  deriving Repr, DecidableEq

/-- `RiskManager._reset_daily_if_needed`: zero the daily counters when the
wall-clock date has advanced. -/
def reset_daily_if_needed (s : RiskState) (today : Nat) : RiskState :=
  if today > s.last_reset_date then
    { s with daily_trades := 0, daily_investment := 0, last_reset_date := today }
  else s

/-- `RiskManager.can_buy`: the three ceiling checks, after the lazy daily
reset.  Returns the decision together with the (possibly reset) state. -/
def can_buy (s : RiskState) (today : Nat) (amount_bnb : ℚ) : Bool × RiskState :=
  let s := reset_daily_if_needed s today
  if s.daily_trades ≥ s.max_daily_trades then (false, s)
  else if s.daily_investment + amount_bnb > s.max_daily_investment then (false, s)
  else if s.active_positions.length ≥ s.max_concurrent_positions then (false, s)
  else (true, s)

/-- `RiskManager.record_buy`: bump the daily counters and append to the
active-position set. -/
def record_buy (s : RiskState) (today : Nat) (token_address : String)
    (amount_bnb : ℚ) : RiskState :=
  let s := reset_daily_if_needed s today
  { s with
    daily_trades := s.daily_trades + 1
    daily_investment := s.daily_investment + amount_bnb
    active_positions := s.active_positions ++ [token_address] }

/-- `RiskManager.record_sell`: remove a fully-closed position from the
active set. -/
def record_sell (s : RiskState) (token_address : String) (is_complete : Bool) :
    RiskState :=
  if is_complete && s.active_positions.contains token_address then
    { s with active_positions := s.active_positions.erase token_address }
  else s

/-- One buy attempt whose `can_buy`/`record_buy` pair runs atomically:
the purchase (when it succeeds) is recorded before the next attempt is
examined. -/
structure Attempt where
  today : Nat
  token_address : String
  amount_bnb : ℚ
  buy_succeeds : Bool

/-- Run one atomic buy attempt through the risk manager. -/
def attempt_buy (s : RiskState) (a : Attempt) : RiskState :=
  if (can_buy s a.today a.amount_bnb).1 && a.buy_succeeds then
    record_buy (can_buy s a.today a.amount_bnb).2 a.today a.token_address
      a.amount_bnb
  else (can_buy s a.today a.amount_bnb).2

/-- Run a sequence of atomic buy attempts. -/
def run_attempts (s : RiskState) : List Attempt → RiskState
  | [] => s
  | a :: rest => run_attempts (attempt_buy s a) rest

/-- `TradingCoordinator._handle_hot_cluster` (src/core/coordinator.py):
the loop calls `can_buy` for every cluster member synchronously, but defers
each `record_buy` into a freshly created task; since the loop body never
awaits, every risk check observes the state from before any recording.
The successful buys are then recorded when the tasks run. -/
def handle_hot_cluster (s : RiskState) (today : Nat) (cluster_tokens : List String)
    (amount_bnb : ℚ) (buy_succeeds : String → Bool) : RiskState :=
  let approved := cluster_tokens.filter (fun _ => (can_buy s today amount_bnb).1)
  approved.foldl
    (fun st tok =>
      if buy_succeeds tok then record_buy st today tok amount_bnb else st)
    (reset_daily_if_needed s today)

/-- The two risk ceilings from the claim. -/
def ceilings_ok (s : RiskState) : Prop :=
  s.active_positions.length ≤ s.max_concurrent_positions ∧
  s.daily_investment ≤ s.max_daily_investment

instance (s : RiskState) : Decidable (ceilings_ok s) := by
  unfold ceilings_ok; infer_instance

end Risk

/-! ## Trade Filter (src/core/filter.py) -/

namespace Filter

/-- Character-wise lowercasing, modelling Python `str.lower()` on the
ASCII identifiers handled by the filter. -/
def myLower (s : String) : String := ⟨s.data.map Char.toLower⟩

/-- Substring test, modelling the Python `keyword in name` operator. -/
def containsSub (hay needle : List Char) : Bool :=
  match hay with
  | [] => needle.isEmpty
  | _ :: t => needle.isPrefixOf hay || containsSub t needle

/-- Configuration fields read by `TradeFilter.__init__` from
`TradingConfig`.  `blacklist_keywords` stores the already-lowercased list,
as the constructor does. -/
structure FilterConfig where
  blacklist_keywords : List String
  min_liquidity : ℚ
  max_tokens_per_creator_24h : Nat
  min_creator_tx_count : Nat
  min_creator_balance_bnb : ℚ
  enable_address_check : Bool
  min_name_length : Nat
  max_name_length : Nat
  min_symbol_length : Nat
  max_symbol_length : Nat
  min_total_supply : ℚ
  max_total_supply : ℚ
  min_liquidity_ratio : ℚ
  min_creator_token_interval_minutes : ℚ

/-- Mutable state of `TradeFilter`: per-creator history of
(timestamp, token address) pairs and the permanent creator blacklist.
Timestamps are wall-clock seconds. -/
structure FilterState where
  creator_history : List (String × List (ℤ × String))
  creator_blacklist : List String
  deriving DecidableEq

/-- The token fields extracted from a TokenCreate event by the
coordinator and consumed by `should_buy`. -/
structure TokenInfo where
  token_name : String
  token_symbol : String
  total_supply : ℚ
  launch_fee : ℚ
  creator : String
  token_address : String

/-- Outcome of the live reputation probe (`w3.eth.get_transaction_count`
and `w3.eth.get_balance`): either both values, or a raised error. -/
inductive ProbeResult where
  | ok (tx_count : Nat) (balance_wei : ℚ)
  | err
  deriving DecidableEq

/-- `TradeFilter._record_creator`: prune entries older than 24 h, then
append the new (timestamp, token address) pair. -/
def record_creator (h : List (ℤ × String)) (now : ℤ) (token_address : String) :
    List (ℤ × String) :=
  (h.filter (fun e => decide (e.1 ≥ now - 86400))) ++ [(now, token_address)]

/-- `TradeFilter._is_batch_creator`. -/
def is_batch_creator (cfg : FilterConfig) (h : List (ℤ × String)) : Bool :=
  h.length > cfg.max_tokens_per_creator_24h

/-- `TradeFilter._is_rapid_creator`: interval in minutes between the two
most recent creations below the configured minimum. -/
def is_rapid_creator (cfg : FilterConfig) (h : List (ℤ × String)) : Bool :=
  if h.length < 2 then false
  else
    match h.reverse with
    | latest :: previous :: _ =>
        decide ((((latest.1 - previous.1 : ℤ) : ℚ) / 60) <
          cfg.min_creator_token_interval_minutes)
    | _ => false

/-- `TradeFilter._check_wallet_reputation`: suspicious on a small
transaction count or a low balance; a raised RPC error yields
not-suspicious ("Check skipped"). -/
def check_wallet_reputation (cfg : FilterConfig) (probe : ProbeResult) :
    Bool × String :=
  match probe with
  | .ok tx_count balance_wei =>
      if tx_count < cfg.min_creator_tx_count then (true, "New wallet")
      else if balance_wei / 1000000000000000000 < cfg.min_creator_balance_bnb then
        (true, "Low balance")
      else (false, "Wallet OK")
  | .err => (false, "Check skipped")

/-- Checks 1-5 of `TradeFilter.should_buy` (name/symbol length, keyword
blacklist, supply bounds, minimum liquidity, liquidity ratio), returning
the first rejection reason if any.  These checks do not touch the filter
state. -/
def basic_checks (cfg : FilterConfig) (info : TokenInfo) : Option String :=
  let name := info.token_name
  let symbol := info.token_symbol
  if name.length < cfg.min_name_length ∨ name.length > cfg.max_name_length then
    some "Invalid name length"
  else if symbol.length < cfg.min_symbol_length ∨
      symbol.length > cfg.max_symbol_length then
    some "Invalid symbol length"
  else
    let name_lower := myLower name
    let symbol_lower := myLower symbol
    match cfg.blacklist_keywords.find?
        (fun kw => containsSub name_lower.data kw.data ||
          containsSub symbol_lower.data kw.data) with
    | some _ => some "Blacklisted keyword"
    | none =>
      if info.total_supply < cfg.min_total_supply then some "Supply too low"
      else if info.total_supply > cfg.max_total_supply then some "Supply too high"
      else if info.launch_fee < cfg.min_liquidity then some "Low liquidity"
      else if info.total_supply > 0 ∧
          (info.launch_fee * 1000000000000000000) / info.total_supply <
            cfg.min_liquidity_ratio then
        some "Low liquidity ratio"
      else none

/-- `TradeFilter.should_buy`: the sequential accept/reject gate.  The
`probe` argument stands for the optional `w3` handle: `none` when no RPC
client is configured, otherwise the outcome of the live reputation
queries. -/
def should_buy (cfg : FilterConfig) (st : FilterState) (info : TokenInfo)
    (now : ℤ) (probe : Option ProbeResult) : (Bool × String) × FilterState :=
  match basic_checks cfg info with
  | some reason => ((false, reason), st)
  | none =>
    if cfg.enable_address_check then
      let creator := info.creator
      if st.creator_blacklist.contains creator then
        ((false, "Creator blacklisted"), st)
      else
        let history := record_creator (lookupD st.creator_history creator [])
          now info.token_address
        let st1 : FilterState :=
          { st with creator_history := setKey st.creator_history creator history }
        if is_rapid_creator cfg history then
          ((false, "Rapid token creation"),
            { st1 with creator_blacklist := st1.creator_blacklist ++ [creator] })
        else if is_batch_creator cfg history then
          ((false, "Batch creator"),
            { st1 with creator_blacklist := st1.creator_blacklist ++ [creator] })
        else
          match probe with
          | some p =>
              let rep := check_wallet_reputation cfg p
              if rep.1 then
                ((false, rep.2),
                  { st1 with
                    creator_blacklist := st1.creator_blacklist ++ [creator] })
              else ((true, "Passed all filters"), st1)
          | none => ((true, "Passed all filters"), st1)
    else ((true, "Passed all filters"), st)

/-- The default `TradingConfig` filter values (config/trading_config.py). -/
def defaultConfig : FilterConfig where
  blacklist_keywords :=
    ["scam", "rug", "test", "dev", "burn", "locked", "free", "airdrop"]
  min_liquidity := 1 / 100
  max_tokens_per_creator_24h := 5
  min_creator_tx_count := 10
  min_creator_balance_bnb := 1 / 100
  enable_address_check := true
  min_name_length := 2
  max_name_length := 30
  min_symbol_length := 2
  max_symbol_length := 10
  min_total_supply := 1000000
  max_total_supply := 1000000000000
  min_liquidity_ratio := 1 / 100000
  min_creator_token_interval_minutes := 30

end Filter

/-! ## Trade Executor nonce handling (src/core/trader.py) -/

namespace Trader

/-- The nonce-relevant state of `TradeExecutor`: the private local
counter (`None` forces a fresh on-chain read) and the value the next
on-chain `get_transaction_count` would return. -/
structure TraderState where
  local_nonce : Option Nat
  chain_nonce : Nat
  deriving DecidableEq, Repr

/-- `TradeExecutor._get_next_nonce` (trading enabled): read the chain
count when the local counter is unknown, hand out the current value and
increment. -/
def get_next_nonce (s : TraderState) : Nat × TraderState :=
  match s.local_nonce with
  | none => (s.chain_nonce, { s with local_nonce := some (s.chain_nonce + 1) })
  | some n => (n, { s with local_nonce := some (n + 1) })

/-- Outcome of the buy-path gas estimation (`func.estimate_gas` in
`buy_token`): success, an "execution reverted" error whose message
mentions the allowance (after which an approval is attempted and the
estimate retried, `retry` being the retried outcome), an unrelated
revert, or a non-revert error (which falls back to a fixed gas limit). -/
inductive EstimateOutcome where
  | ok (gas : Nat)
  | revertAllowance (retry : Option Nat)
  | revertOther
  | otherError

/-- Environment describing how the fallible steps of one `buy_token`
call behave: the gas estimation outcome, the raw-transaction submission
(`none` means `send_raw_transaction` raises), and whether the awaited
confirmation receipt reports success. -/
structure BuyEnv where
  estimate : EstimateOutcome
  send : Option String
  waitOk : Bool

/-- `TradeExecutor.buy_token` with trading enabled and
`skip_estimate=False`, projected onto its nonce bookkeeping and its
returned transaction hash.  Early `return None` statements inside the
`try` block do not run the exception handler; only a raised exception
reaches the `except` clause that sets `local_nonce = None`. -/
def buy_token (s : TraderState) (env : BuyEnv) : Option String × TraderState :=
  let (_, s1) := get_next_nonce s
  let submit : Nat → TraderState → Option String × TraderState :=
    fun _gas st =>
      match env.send with
      | none => (none, { st with local_nonce := none })
      | some tx_hash => if env.waitOk then (some tx_hash, st) else (none, st)
  match env.estimate with
  | .ok gas => submit gas s1
  | .revertOther => (none, s1)
  | .revertAllowance none =>
      -- the approval transaction consumed a further nonce, then the
      -- re-estimation failed and `return None` skips the handler
      let (_, s2) := get_next_nonce s1
      (none, s2)
  | .revertAllowance (some gas) =>
      let (_, s2) := get_next_nonce s1
      submit gas s2
  | .otherError => submit 500000 s1

/-- Estimation outcomes after which `buy_token` proceeds to build, sign
and submit the transaction (as opposed to returning `None` early). -/
def reaches_submit : EstimateOutcome → Bool
  | .ok _ => true
  | .revertAllowance (some _) => true
  | .otherError => true
  | _ => false

/-- Outcome of the sell-path gas estimation: `sellToken` estimates fine,
reverts (abandon), or fails non-revert and the `saleToken` fallback
either estimates fine or fails too. -/
inductive SellEstimate where
  | ok (gas : Nat)
  | revert
  | fallbackOk (gas : Nat)
  | fallbackFail

/-- Environment for one `sell_token` call: whether `_ensure_approve`
raises, whether the current allowance already suffices (otherwise the
approval transaction consumes a nonce), the estimation outcome, the
submission result and the confirmation outcome. -/
structure SellEnv where
  approveRaises : Bool
  allowanceSufficient : Bool
  estimate : SellEstimate
  send : Option String
  waitOk : Bool

/-- `TradeExecutor.sell_token` with trading enabled, projected onto its
nonce bookkeeping and returned transaction hash.  Note that neither the
early `return None` statements nor the outer `except` clause of
`sell_token` ever touch `local_nonce`. -/
def sell_token (s : TraderState) (env : SellEnv) : Option String × TraderState :=
  if env.approveRaises then (none, s)
  else
    let s0 := if env.allowanceSufficient then s else (get_next_nonce s).2
    let (_, s1) := get_next_nonce s0
    let submit : Nat → Option String × TraderState :=
      fun _gas =>
        match env.send with
        | none => (none, s1)
        | some tx_hash => if env.waitOk then (some tx_hash, s1) else (none, s1)
    match env.estimate with
    | .ok gas => submit gas
    | .revert => (none, s1)
    | .fallbackOk gas => submit gas
    | .fallbackFail => (none, s1)

end Trader

/-! ## Event Listener (src/core/listener.py) -/

namespace Listener

/-- Capacity of the deduplication cache (`max_cache_size` in
`FourMemeListener.__init__`). -/
def max_cache_size : Nat := 1000

/-- `FourMemeListener._is_duplicate`: membership test on the seen-key
cache, insertion of new keys, and eviction of the 100 oldest entries
once the cache exceeds its capacity.  The Python set is modelled as an
insertion-ordered duplicate-free list. -/
def is_duplicate (seen : List String) (key : String) : Bool × List String :=
  if seen.contains key then (true, seen)
  else
    let s2 := seen ++ [key]
    (false, if s2.length > max_cache_size then s2.drop 100 else s2)

/-- The dedup key built by `_process_event` from a delivered log. -/
def dedup_key (tx_hash : String) (log_index : Nat) : String :=
  tx_hash ++ "_" ++ toString log_index

/-- Cache state after processing a trace of delivered dedup keys through
`_process_event`. -/
def seen_after (seen : List String) (trace : List String) : List String :=
  trace.foldl (fun s e => (is_duplicate s e).2) seen

/-- Number of handler invocations observed for key `k` while processing
a delivery trace: `_process_event` calls the registered handlers exactly
when `_is_duplicate` answered `False`. -/
def fired_count (seen : List String) (k : String) : List String → Nat
  | [] => 0
  | e :: rest =>
      let r := is_duplicate seen e
      (if !r.1 && e == k then 1 else 0) + fired_count r.2 k rest

/-- `FourMemeListener._process_block_range` when every multi-block fetch
hits the rate-limit branch: the range splits at `mid = (from+to) / 2`
into `[from, mid]` and `[mid+1, to]`, recursing until single blocks.
This function lists the single blocks finally fetched, in order. -/
def bisect_leaves (from_block to_block : Nat) : List Nat :=
  if to_block ≤ from_block then [from_block]
  else
    let mid := (from_block + to_block) / 2
    bisect_leaves from_block mid ++ bisect_leaves (mid + 1) to_block
termination_by to_block - from_block
decreasing_by all_goals omega

/-- Number of nested splits performed by the bisection in the same
worst case. -/
def bisect_depth (from_block to_block : Nat) : Nat :=
  if to_block ≤ from_block then 0
  else
    let mid := (from_block + to_block) / 2
    1 + max (bisect_depth from_block mid) (bisect_depth (mid + 1) to_block)
termination_by to_block - from_block
decreasing_by all_goals omega

end Listener

/-! ## Trend Tracker (src/core/trend_tracker.py) -/

namespace Trend

/-- Character-wise uppercasing, modelling Python `str.upper()` on the
ASCII symbols handled by the tracker. -/
def myUpper (s : String) : String := ⟨s.data.map Char.toUpper⟩

/-- Constructor arguments of `TrendTracker`. -/
structure TrendConfig where
  window_minutes : ℤ
  threshold : Nat
  prefix_length : Nat

/-- Mutable state of `TrendTracker`: per-symbol-key sliding windows of
(timestamp, token address, symbol) entries, and the set of keys already
flagged "triggered".  Timestamps are wall-clock seconds. -/
structure TrendState where
  symbol_clusters : List (String × List (ℤ × String × String))
  triggered_clusters : List String
  deriving DecidableEq

/-- The bucket key: upper-cased first `prefix_length` characters of the
symbol. -/
def clusterKeyOf (cfg : TrendConfig) (symbol : String) : String :=
  myUpper (symbol.take cfg.prefix_length)

/-- `TrendTracker._cleanup_old_entries`: drop entries older than the
window, clear the triggered flag when the bucket fell below threshold,
and delete the bucket when it emptied. -/
def cleanup_old_entries (cfg : TrendConfig) (st : TrendState) (key : String)
    (now : ℤ) : TrendState :=
  if (findVal st.symbol_clusters key).isSome then
    let kept := (lookupD st.symbol_clusters key []).filter
      (fun e => decide (e.1 ≥ now - 60 * cfg.window_minutes))
    let triggered :=
      if kept.length < cfg.threshold then st.triggered_clusters.erase key
      else st.triggered_clusters
    let clusters :=
      if kept.isEmpty then removeKey st.symbol_clusters key
      else setKey st.symbol_clusters key kept
    { symbol_clusters := clusters, triggered_clusters := triggered }
  else st

/-- `TrendTracker.add_token`: prune the bucket, append the new entry,
and signal "hot" with the full batch on first reaching the threshold or
with just the new address while the bucket stays triggered. -/
def add_token (cfg : TrendConfig) (st : TrendState) (token_address : String)
    (symbol : String) (now : ℤ) : (Bool × List String) × TrendState :=
  if symbol.isEmpty ∨ symbol.length < cfg.prefix_length then ((false, []), st)
  else
    let key := clusterKeyOf cfg symbol
    let st1 := cleanup_old_entries cfg st key now
    let entries := lookupD st1.symbol_clusters key [] ++ [(now, token_address, symbol)]
    let st2 : TrendState :=
      { st1 with symbol_clusters := setKey st1.symbol_clusters key entries }
    if entries.length ≥ cfg.threshold then
      if st2.triggered_clusters.contains key then ((true, [token_address]), st2)
      else
        ((true, entries.map (fun e => e.2.1)),
          { st2 with triggered_clusters := st2.triggered_clusters ++ [key] })
    else ((false, []), st2)

/-- Sequentially feed a list of (timestamp, address, symbol) arrivals
through `add_token`, collecting the returned signals. -/
def run_add (cfg : TrendConfig) (st : TrendState) :
    List (ℤ × String × String) → TrendState × List (Bool × List String)
  | [] => (st, [])
  | a :: rest =>
      let r := add_token cfg st a.2.1 a.2.2 a.1
      let rr := run_add cfg r.2 rest
      (rr.1, r.1 :: rr.2)

/-- The signal pattern the specification claims for a same-key stream:
not-hot below the threshold, the full batch exactly when the count first
reaches the threshold, and the single new address afterwards.  `sofar`
is the list of addresses already in the bucket. -/
def expected_outputs (threshold : Nat) (sofar : List String) :
    List (ℤ × String × String) → List (Bool × List String)
  | [] => []
  | a :: rest =>
      let all := sofar ++ [a.2.1]
      (if all.length < threshold then (false, [])
       else if all.length = threshold then (true, all)
       else (true, [a.2.1])) ::
        expected_outputs threshold all rest

/-- A tracker state holding a single bucket for key `P` with entries `E`
and triggered flag `flag` (the shape reached by feeding a same-key
stream into a fresh tracker). -/
def stBucket (P : String) (E : List (ℤ × String × String)) (flag : Bool) :
    TrendState where
  symbol_clusters := if E.isEmpty then [] else [(P, E)]
  triggered_clusters := if flag then [P] else []

/-- The addresses stored in a bucket, in insertion order. -/
def addrsOf (E : List (ℤ × String × String)) : List String :=
  E.map (fun e => e.2.1)

end Trend

/-! ## Position Tracker (src/core/position.py) -/

namespace Position

/-- The `status` field of a position. -/
inductive PStatus where
  | holding
  | partialSold
  | closed
  deriving DecidableEq, Repr

/-- One entry of `PositionTracker.positions`.  Prices and BNB amounts
are rationals standing for the Python floats; token amounts are the raw
wei figures the code stores. -/
structure Pos where
  token_address : String
  entry_price : ℚ
  total_amount : ℚ
  remaining_amount : ℚ
  bnb_invested : ℚ
  total_cost : ℚ
  buy_time : ℚ
  buy_tx_hash : String
  status : PStatus
  first_sell_price : Option ℚ
  peak_price : ℚ
  last_price : Option ℚ
  deriving DecidableEq

/-- Strategy parameters read from `TradingConfig` by
`PositionTracker.__init__`. -/
structure StrategyConfig where
  take_profit_pct : ℚ
  take_profit_sell_pct : ℚ
  stop_loss_pct : ℚ
  max_hold_time : ℚ
  keep_moonshot : Bool
  moonshot_profit_pct : ℚ
  moonshot_stop_loss_pct : ℚ
  moonshot_max_hold_hours : ℚ

/-- The default strategy values (config/trading_config.py). -/
def defaultStrategy : StrategyConfig where
  take_profit_pct := 200
  take_profit_sell_pct := 90
  stop_loss_pct := -50
  max_hold_time := 300
  keep_moonshot := true
  moonshot_profit_pct := 500
  moonshot_stop_loss_pct := -30
  moonshot_max_hold_hours := 24

/-- The fixed per-transaction gas estimate (`self.gas_per_tx`). -/
def gas_per_tx : ℚ := 15 / 10000

/-- Mutable state of `PositionTracker` (the trades directory and the
log rate-limit map only affect logging and are omitted). -/
structure TrackerState where
  positions : List (String × Pos)
  total_realized_pnl : ℚ
  total_invested : ℚ
  total_trades : Nat
  total_fees_paid : ℚ
  win_count : Nat
  loss_count : Nat
  deriving DecidableEq

/-- Externally visible effects of one evaluation: sell orders submitted
to the executor and full-close notifications to the risk manager. -/
inductive Action where
  | sellCall (token : String) (amount : ℚ)
  | riskRecordSell (token : String)
  deriving DecidableEq

/-- `PositionTracker.add_position`. -/
def add_position (s : TrackerState) (token_address tx_hash : String)
    (entry_price token_amount bnb_invested buy_fee : ℚ) (now : ℚ) :
    TrackerState :=
  let total_cost := bnb_invested + buy_fee + gas_per_tx
  let pos : Pos :=
    { token_address := token_address
      entry_price := entry_price
      total_amount := token_amount
      remaining_amount := token_amount
      bnb_invested := bnb_invested
      total_cost := total_cost
      buy_time := now
      buy_tx_hash := tx_hash
      status := .holding
      first_sell_price := none
      peak_price := entry_price
      last_price := none }
  { s with
    total_fees_paid := s.total_fees_paid + (buy_fee + gas_per_tx)
    positions := setKey s.positions token_address pos
    total_invested := s.total_invested + total_cost
    total_trades := s.total_trades + 1 }

/-- `PositionTracker._sell_partial`.  `sell_result` is the transaction
hash returned by `trader.sell_token` (`none` when the sell failed); the
simulation branch estimating the fee at 1% of proceeds is taken, as in
the code when no actual fee is passed. -/
def sell_partial (s : TrackerState) (token : String) (sell_ratio price : ℚ)
    (sell_result : Option String) : TrackerState × List Action :=
  match findVal s.positions token with
  | none => (s, [])
  | some pos =>
    let sell_amount : ℤ := ⌊pos.remaining_amount * sell_ratio⌋
    if sell_amount ≤ 0 then (s, [])
    else
      match sell_result with
      | none => (s, [.sellCall token (sell_amount : ℚ)])
      | some _ =>
        let sold_value := ((sell_amount : ℚ) / 1000000000000000000) * price
        let sell_fee := sold_value * (1 / 100)
        let total_sell_cost := sell_fee + gas_per_tx
        let cost_share := pos.total_cost * sell_ratio
        let profit := sold_value - total_sell_cost - cost_share
        let s1 := { s with
          total_fees_paid := s.total_fees_paid + total_sell_cost
          total_realized_pnl := s.total_realized_pnl + profit
          positions := updateKey s.positions token (fun p =>
            { p with
              remaining_amount := p.remaining_amount - (sell_amount : ℚ)
              status := .partialSold
              first_sell_price := some price
              peak_price := price }) }
        (s1, [.sellCall token (sell_amount : ℚ)])

/-- `PositionTracker._sell_all` (called with the default
`sell_fee = 0`). -/
def sell_all (s : TrackerState) (token : String) (price : ℚ)
    (sell_result : Option String) : TrackerState × List Action :=
  match findVal s.positions token with
  | none => (s, [])
  | some pos =>
    let sell_amount : ℤ := ⌊pos.remaining_amount⌋
    if sell_amount ≤ 0 then
      ({ s with positions := removeKey s.positions token }, [])
    else
      match sell_result with
      | none => (s, [.sellCall token (sell_amount : ℚ)])
      | some _ =>
        let remaining_ratio :=
          if pos.total_amount > 0 then (sell_amount : ℚ) / pos.total_amount else 0
        let sold_value := ((sell_amount : ℚ) / 1000000000000000000) * price
        let total_sell_cost := 0 + gas_per_tx
        let cost_share := pos.total_cost * remaining_ratio
        let profit := sold_value - total_sell_cost - cost_share
        let s1 := { s with
          total_fees_paid := s.total_fees_paid + total_sell_cost
          total_realized_pnl := s.total_realized_pnl + profit
          win_count := if profit > 0 then s.win_count + 1 else s.win_count
          loss_count :=
            if profit > 0 then s.loss_count
            else if profit < 0 then s.loss_count + 1 else s.loss_count
          positions := removeKey s.positions token }
        (s1, [.sellCall token (sell_amount : ℚ), .riskRecordSell token])

/-- `PositionTracker._check_initial_position`: take-profit, then
stop-loss, then the time stop. -/
def check_initial_position (cfg : StrategyConfig) (s : TrackerState)
    (token : String) (current_price now : ℚ) (sell_result : Option String) :
    TrackerState × List Action :=
  match findVal s.positions token with
  | none => (s, [])
  | some pos =>
    let pnl_pct := (current_price - pos.entry_price) / pos.entry_price * 100
    if pnl_pct ≥ cfg.take_profit_pct then
      sell_partial s token (cfg.take_profit_sell_pct / 100) current_price
        sell_result
    else if pnl_pct ≤ cfg.stop_loss_pct then
      sell_all s token current_price sell_result
    else if now - pos.buy_time > cfg.max_hold_time then
      sell_all s token current_price sell_result
    else (s, [])

/-- `PositionTracker._check_moonshot_position`: update the peak price,
then moonshot take-profit, drawdown stop, and the moonshot time stop. -/
def check_moonshot_position (cfg : StrategyConfig) (s : TrackerState)
    (token : String) (current_price now : ℚ) (sell_result : Option String) :
    TrackerState × List Action :=
  match findVal s.positions token with
  | none => (s, [])
  | some pos =>
    let peak := if current_price > pos.peak_price then current_price else pos.peak_price
    let s1 := { s with positions := (updateKey s.positions token
      (fun p => { p with peak_price := peak })) }
    let entry_pnl_pct := (current_price - pos.entry_price) / pos.entry_price * 100
    if entry_pnl_pct ≥ cfg.moonshot_profit_pct then
      sell_all s1 token current_price sell_result
    else
      let drawdown_pct := (current_price - peak) / peak * 100
      if drawdown_pct ≤ cfg.moonshot_stop_loss_pct then
        sell_all s1 token current_price sell_result
      else if now - pos.buy_time > cfg.moonshot_max_hold_hours * 3600 then
        sell_all s1 token current_price sell_result
      else (s1, [])

/-- `PositionTracker.on_price_update`: record the observed price, skip
uninitialized positions (`entry_price == 0`), and dispatch to the
status-specific exit-rule check.  The PnL echo block only logs and is
omitted. -/
def on_price_update (cfg : StrategyConfig) (s : TrackerState) (token : String)
    (current_price now : ℚ) (sell_result : Option String) :
    TrackerState × List Action :=
  match findVal s.positions token with
  | none => (s, [])
  | some pos =>
    let s1 := { s with positions := (updateKey s.positions token
      (fun p => { p with last_price := some current_price })) }
    if pos.entry_price = 0 then (s1, [])
    else
      match pos.status with
      | .holding => check_initial_position cfg s1 token current_price now sell_result
      | .partialSold =>
          if cfg.keep_moonshot then
            check_moonshot_position cfg s1 token current_price now sell_result
          else (s1, [])
      | .closed => (s1, [])

end Position

/-! ## Helper lemmas about the association-list primitives -/

theorem findVal_updateKey_self {α : Type} (m : List (String × α)) (k : String)
    (f : α → α) :
    findVal (updateKey m k f) k = (findVal m k).map f := by
  induction m with
  | nil => rfl
  | cons hd tl ih =>
    obtain ⟨a, v⟩ := hd
    by_cases h : a = k
    · subst h
      simp [updateKey, findVal]
    · simp only [updateKey, if_neg h, findVal]
      exact ih

theorem findVal_updateKey_ne {α : Type} (m : List (String × α)) (k k' : String)
    (f : α → α) (hne : k' ≠ k) :
    findVal (updateKey m k f) k' = findVal m k' := by
  induction m with
  | nil => rfl
  | cons hd tl ih =>
    obtain ⟨a, v⟩ := hd
    by_cases h : a = k
    · subst h
      have h1 : ¬(a = k') := fun hc => hne hc.symm
      simp only [updateKey, if_pos rfl, findVal, if_neg h1]
      exact ih
    · simp only [updateKey, if_neg h]
      by_cases h2 : a = k'
      · simp [findVal, h2]
      · simp only [findVal, if_neg h2]
        exact ih

theorem findVal_setKey_self {α : Type} (m : List (String × α)) (k : String)
    (v : α) : findVal (setKey m k v) k = some v := by
  induction m with
  | nil => simp [setKey, findVal]
  | cons hd tl ih =>
    obtain ⟨a, w⟩ := hd
    by_cases h : a = k
    · simp [setKey, findVal, h]
    · simp only [setKey, if_neg h, findVal, if_neg h]
      exact ih

theorem findVal_setKey_ne {α : Type} (m : List (String × α)) (k k' : String)
    (v : α) (hne : k' ≠ k) :
    findVal (setKey m k v) k' = findVal m k' := by
  have hkk : ¬(k = k') := fun hc => hne hc.symm
  induction m with
  | nil => simp [setKey, findVal, hkk]
  | cons hd tl ih =>
    obtain ⟨a, w⟩ := hd
    by_cases h : a = k
    · subst h
      simp only [setKey, if_pos rfl, findVal, if_neg hkk]
    · simp only [setKey, if_neg h]
      by_cases h2 : a = k'
      · simp [findVal, h2]
      · simp only [findVal, if_neg h2]
        exact ih

theorem lookupD_setKey_self {α : Type} (m : List (String × α)) (k : String)
    (v d : α) : lookupD (setKey m k v) k d = v := by
  simp [lookupD, findVal_setKey_self]

/-- Helper: a price update on a holding position whose PnL meets the
take-profit threshold (and whose tranche is a positive wei amount, with
the sell succeeding) executes exactly the take-profit partial sell of
`_sell_partial`. -/
theorem take_profit_step (cfg : Position.StrategyConfig)
    (s : Position.TrackerState) (token : String) (pos : Position.Pos)
    (price now : ℚ) (tx : String)
    (hfind : findVal s.positions token = some pos)
    (hentry : pos.entry_price ≠ 0)
    (hstatus : pos.status = .holding)
    (htp : (price - pos.entry_price) / pos.entry_price * 100 ≥
      cfg.take_profit_pct)
    (hamt : 0 < ⌊pos.remaining_amount * (cfg.take_profit_sell_pct / 100)⌋) :
    Position.on_price_update cfg s token price now (some tx) =
      ({ s with
          total_fees_paid := s.total_fees_paid +
            ((((⌊pos.remaining_amount * (cfg.take_profit_sell_pct / 100)⌋ : ℤ) : ℚ) /
                1000000000000000000) * price * (1 / 100) + Position.gas_per_tx),
          total_realized_pnl := s.total_realized_pnl +
            ((((⌊pos.remaining_amount * (cfg.take_profit_sell_pct / 100)⌋ : ℤ) : ℚ) /
                1000000000000000000) * price -
              ((((⌊pos.remaining_amount * (cfg.take_profit_sell_pct / 100)⌋ : ℤ) : ℚ) /
                  1000000000000000000) * price * (1 / 100) + Position.gas_per_tx) -
              pos.total_cost * (cfg.take_profit_sell_pct / 100)),
          positions := (updateKey (updateKey s.positions token
              (fun p => { p with last_price := some price })) token
            (fun p => { p with
              remaining_amount := p.remaining_amount -
                ((⌊pos.remaining_amount * (cfg.take_profit_sell_pct / 100)⌋ : ℤ) : ℚ),
              status := .partialSold,
              first_sell_price := some price,
              peak_price := price })) },
        [.sellCall token
          ((⌊pos.remaining_amount * (cfg.take_profit_sell_pct / 100)⌋ : ℤ) : ℚ)]) := by
  have hamt' := not_le.mpr hamt
  have hfind1 : findVal (updateKey s.positions token
      (fun p => { p with last_price := some price })) token =
      some { pos with last_price := some price } := by
    rw [findVal_updateKey_self, hfind]
    rfl
  unfold Position.on_price_update
  rw [hfind]
  simp only [hstatus, if_neg hentry]
  unfold Position.check_initial_position
  rw [hfind1]
  simp only [if_pos htp]
  unfold Position.sell_partial
  rw [hfind1]
  simp only [if_neg hamt']

/-! ## Concrete fixtures used by witnesses and counterexamples -/

namespace Fix

/-- A pending position: buy submitted, no confirming fill yet. -/
def posZero : Position.Pos where
  token_address := "T"
  entry_price := 0
  total_amount := 0
  remaining_amount := 0
  bnb_invested := 1
  total_cost := 1
  buy_time := 0
  buy_tx_hash := "0xbuy"
  status := .holding
  first_sell_price := none
  peak_price := 0
  last_price := none

/-- A tracker holding only the pending position. -/
def trackerZero : Position.TrackerState where
  positions := [("T", posZero)]
  total_realized_pnl := 0
  total_invested := 1
  total_trades := 1
  total_fees_paid := 0
  win_count := 0
  loss_count := 0

/-- A misconfigured strategy whose stop-loss and take-profit thresholds
overlap: any PnL between +10% and +50% satisfies both exit rules. -/
def cfgOverlap : Position.StrategyConfig where
  take_profit_pct := 10
  take_profit_sell_pct := 90
  stop_loss_pct := 50
  max_hold_time := 300
  keep_moonshot := true
  moonshot_profit_pct := 500
  moonshot_stop_loss_pct := -30
  moonshot_max_hold_hours := 24

/-- A fully entered holding position at entry price 1 with 10 token
units. -/
def posHold : Position.Pos where
  token_address := "T"
  entry_price := 1
  total_amount := 10
  remaining_amount := 10
  bnb_invested := 1
  total_cost := 1
  buy_time := 0
  buy_tx_hash := "0xbuy"
  status := .holding
  first_sell_price := none
  peak_price := 1
  last_price := none

/-- A tracker holding only `posHold`. -/
def trackerHold : Position.TrackerState where
  positions := [("T", posHold)]
  total_realized_pnl := 0
  total_invested := 1
  total_trades := 1
  total_fees_paid := 0
  win_count := 0
  loss_count := 0

/-- A token whose lower-cased name contains the blacklisted keyword
"rug" but which is otherwise unremarkable. -/
def tokRug : Filter.TokenInfo where
  token_name := "SuperRug"
  token_symbol := "SRUG"
  total_supply := 1000000000
  launch_fee := 1
  creator := "0xCreator"
  token_address := "0xToken"

/-- A permissive filter configuration (no keywords, trivial bounds) with
the creator address check enabled. -/
def cfgPlain : Filter.FilterConfig where
  blacklist_keywords := []
  min_liquidity := 0
  max_tokens_per_creator_24h := 5
  min_creator_tx_count := 10
  min_creator_balance_bnb := 0
  enable_address_check := true
  min_name_length := 0
  max_name_length := 100
  min_symbol_length := 0
  max_symbol_length := 100
  min_total_supply := 0
  max_total_supply := 1000000
  min_liquidity_ratio := 0
  min_creator_token_interval_minutes := 30

/-- A token that passes all the basic checks of `cfgPlain`. -/
def tokPepe : Filter.TokenInfo where
  token_name := "Pepe"
  token_symbol := "PEPE"
  total_supply := 5
  launch_fee := 1
  creator := "C"
  token_address := "T1"

/-- A filter state in which creator "C" launched token "T0" at time 0. -/
def stC : Filter.FilterState where
  creator_history := [("C", [(0, "T0")])]
  creator_blacklist := []

end Fix

/-! ## Claim theorems -/

/-- C4 counterexample: a `sell_token` call whose gas estimation reverts
(a failed transaction submission path) leaves the local nonce counter at
its incremented value instead of resetting it to the unknown state. -/
theorem C4_counterexample :
    (Trader.sell_token ⟨some 5, 11⟩
        ⟨false, true, .revert, none, false⟩).1 = none ∧
    (Trader.sell_token ⟨some 5, 11⟩
        ⟨false, true, .revert, none, false⟩).2.local_nonce = some 6 := by
  constructor <;> rfl

/-- C4 (amended): only an exception escaping to `buy_token`'s handler
resets the local nonce counter to the unknown state.  Conjunct 1: a
raised submission resets the counter and fails the buy.  Conjuncts 2
and 3: `buy_token`'s estimate-revert early returns (`return None` for a
non-allowance revert, and a failed re-estimate after the allowance
retry) return failure with exactly the post-allocation state — the
incremented counter is left in place, not reset.  Conjunct 4: nonce
allocation always leaves a known (incremented) counter, so those states
are never the unknown state.  Conjunct 5: whenever the raw submission
does not raise, `buy_token` never resets the counter, whatever the
estimate and confirmation outcomes.  Conjunct 6: `sell_token` never
resets the counter on any path, all failure paths included. -/
theorem C4_amended :
    (∀ (s : Trader.TraderState) (env : Trader.BuyEnv),
        Trader.reaches_submit env.estimate = true → env.send = none →
        Trader.buy_token s env = (none, { s with local_nonce := none })) ∧
    (∀ (s : Trader.TraderState) (env : Trader.BuyEnv),
        env.estimate = Trader.EstimateOutcome.revertOther →
        Trader.buy_token s env = (none, (Trader.get_next_nonce s).2)) ∧
    (∀ (s : Trader.TraderState) (env : Trader.BuyEnv),
        env.estimate = Trader.EstimateOutcome.revertAllowance none →
        Trader.buy_token s env =
          (none, (Trader.get_next_nonce (Trader.get_next_nonce s).2).2)) ∧
    (∀ s : Trader.TraderState,
        (Trader.get_next_nonce s).2.local_nonce =
          some ((Trader.get_next_nonce s).1 + 1)) ∧
    (∀ (s : Trader.TraderState) (env : Trader.BuyEnv) (tx : String),
        env.send = some tx →
        (Trader.buy_token s env).2.local_nonce ≠ none) ∧
    (∀ (s : Trader.TraderState) (env : Trader.SellEnv) (n : Nat),
        s.local_nonce = some n →
        (Trader.sell_token s env).2.local_nonce ≠ none) := by
  have hnext : ∀ st : Trader.TraderState,
      (Trader.get_next_nonce st).2.local_nonce =
        some ((Trader.get_next_nonce st).1 + 1) := by
    intro st
    cases h : st.local_nonce <;> simp [Trader.get_next_nonce, h]
  refine ⟨?_, ?_, ?_, hnext, ?_, ?_⟩
  · intro s env hr hs
    obtain ⟨ln, cn⟩ := s
    cases henv : env.estimate with
    | ok g =>
        cases ln <;>
          simp [Trader.buy_token, henv, hs, Trader.get_next_nonce]
    | revertAllowance retry =>
        cases retry with
        | none => simp [Trader.reaches_submit, henv] at hr
        | some g =>
            cases ln <;>
              simp [Trader.buy_token, henv, hs, Trader.get_next_nonce]
    | revertOther => simp [Trader.reaches_submit, henv] at hr
    | otherError =>
        cases ln <;>
          simp [Trader.buy_token, henv, hs, Trader.get_next_nonce]
  · intro s env henv
    obtain ⟨ln, cn⟩ := s
    cases ln <;> simp [Trader.buy_token, henv, Trader.get_next_nonce]
  · intro s env henv
    obtain ⟨ln, cn⟩ := s
    cases ln <;> simp [Trader.buy_token, henv, Trader.get_next_nonce]
  · intro s env tx hsend
    obtain ⟨ln, cn⟩ := s
    cases henv : env.estimate with
    | revertAllowance retry =>
        cases retry <;> cases hw : env.waitOk <;> cases ln <;>
          simp [Trader.buy_token, henv, hsend, hw, Trader.get_next_nonce]
    | _ =>
        cases hw : env.waitOk <;> cases ln <;>
          simp [Trader.buy_token, henv, hsend, hw, Trader.get_next_nonce]
  · intro s env n hn
    by_cases ha : env.approveRaises = true
    · simp [Trader.sell_token, ha, hn]
    · simp only [Bool.not_eq_true] at ha
      cases henv : env.estimate <;>
        cases hsend : env.send <;>
        cases hwait : env.waitOk <;>
        simp [Trader.sell_token, ha, henv, hsend, hwait, hnext]

/-- C4 amended witness: a raising buy submission resets the counter; a
non-allowance estimate revert returns failure with the counter
incremented to 6, not reset; a non-raising submission keeps a known
counter; and a failing sell keeps the counter. -/
theorem C4_amended_witness :
    Trader.reaches_submit (Trader.EstimateOutcome.ok 21000) = true ∧
    Trader.buy_token ⟨some 5, 11⟩ ⟨.ok 21000, none, true⟩ =
      (none, { local_nonce := none, chain_nonce := 11 }) ∧
    Trader.buy_token ⟨some 5, 11⟩ ⟨.revertOther, none, true⟩ =
      (none, (Trader.get_next_nonce ⟨some 5, 11⟩).2) ∧
    Trader.buy_token ⟨some 5, 11⟩ ⟨.revertAllowance none, none, true⟩ =
      (none,
        (Trader.get_next_nonce (Trader.get_next_nonce ⟨some 5, 11⟩).2).2) ∧
    (Trader.get_next_nonce (⟨some 5, 11⟩ : Trader.TraderState)).2.local_nonce =
      some ((Trader.get_next_nonce (⟨some 5, 11⟩ : Trader.TraderState)).1 + 1) ∧
    (Trader.buy_token ⟨some 5, 11⟩
        ⟨.ok 21000, some "0xtx", false⟩).2.local_nonce ≠ none ∧
    (Trader.sell_token ⟨some 5, 11⟩
        ⟨false, true, .revert, none, false⟩).2.local_nonce ≠ none :=
  ⟨rfl, C4_amended.1 ⟨some 5, 11⟩ ⟨.ok 21000, none, true⟩ rfl rfl,
    C4_amended.2.1 ⟨some 5, 11⟩ ⟨.revertOther, none, true⟩ rfl,
    C4_amended.2.2.1 ⟨some 5, 11⟩ ⟨.revertAllowance none, none, true⟩ rfl,
    C4_amended.2.2.2.1 ⟨some 5, 11⟩,
    C4_amended.2.2.2.2.1 ⟨some 5, 11⟩ ⟨.ok 21000, some "0xtx", false⟩
      "0xtx" rfl,
    C4_amended.2.2.2.2.2 ⟨some 5, 11⟩ ⟨false, true, .revert, none, false⟩
      5 rfl⟩

/-- Helper: the daily reset never changes the configured maxima or the
active-position set. -/
theorem reset_fields (s : Risk.RiskState) (t : Nat) :
    (Risk.reset_daily_if_needed s t).max_daily_investment =
        s.max_daily_investment ∧
    (Risk.reset_daily_if_needed s t).max_concurrent_positions =
        s.max_concurrent_positions ∧
    (Risk.reset_daily_if_needed s t).active_positions = s.active_positions := by
  unfold Risk.reset_daily_if_needed
  split_ifs <;> exact ⟨rfl, rfl, rfl⟩

/-- Helper: the daily reset is idempotent for a fixed date. -/
theorem reset_idem (s : Risk.RiskState) (t : Nat) :
    Risk.reset_daily_if_needed (Risk.reset_daily_if_needed s t) t =
      Risk.reset_daily_if_needed s t := by
  unfold Risk.reset_daily_if_needed
  split_ifs with u v <;> first | rfl | (exfalso; simp_all) | omega

/-- Helper: `can_buy` returns the reset state unchanged. -/
theorem can_buy_snd (s : Risk.RiskState) (t : Nat) (amt : ℚ) :
    (Risk.can_buy s t amt).2 = Risk.reset_daily_if_needed s t := by
  unfold Risk.can_buy
  dsimp only
  split_ifs <;> rfl

/-- Helper: a positive `can_buy` answer certifies that the investment
and position ceilings have headroom in the reset state. -/
theorem can_buy_facts (s : Risk.RiskState) (t : Nat) (amt : ℚ)
    (h : (Risk.can_buy s t amt).1 = true) :
    (Risk.reset_daily_if_needed s t).daily_investment + amt ≤
      (Risk.reset_daily_if_needed s t).max_daily_investment ∧
    (Risk.reset_daily_if_needed s t).active_positions.length <
      (Risk.reset_daily_if_needed s t).max_concurrent_positions := by
  unfold Risk.can_buy at h
  dsimp only at h
  split_ifs at h with hc1 hc2 hc3
  exact ⟨not_lt.mp hc2, not_le.mp hc3⟩

/-- Helper: `attempt_buy` preserves the risk ceilings and the configured
maxima, provided the configured daily-investment maximum is
nonnegative. -/
theorem attempt_buy_preserves (s : Risk.RiskState) (a : Risk.Attempt)
    (hmax : 0 ≤ s.max_daily_investment) (hinv : Risk.ceilings_ok s) :
    Risk.ceilings_ok (Risk.attempt_buy s a) ∧
    (Risk.attempt_buy s a).max_daily_investment = s.max_daily_investment := by
  obtain ⟨h1, h2⟩ := hinv
  obtain ⟨hm1, hm2, hm3⟩ := reset_fields s a.today
  have hrinv : (Risk.reset_daily_if_needed s a.today).daily_investment ≤
      (Risk.reset_daily_if_needed s a.today).max_daily_investment := by
    unfold Risk.reset_daily_if_needed
    split_ifs
    · exact hmax
    · exact h2
  unfold Risk.attempt_buy
  by_cases hok : ((Risk.can_buy s a.today a.amount_bnb).1 &&
      a.buy_succeeds) = true
  · rw [if_pos hok, can_buy_snd]
    have hcb : (Risk.can_buy s a.today a.amount_bnb).1 = true :=
      ((Bool.and_eq_true _ _).mp hok).1
    obtain ⟨hfa, hfb⟩ := can_buy_facts s a.today a.amount_bnb hcb
    unfold Risk.record_buy
    rw [reset_idem]
    refine ⟨⟨?_, ?_⟩, ?_⟩
    · simpa using hfb
    · exact hfa
    · exact hm1
  · rw [if_neg hok, can_buy_snd]
    exact ⟨⟨hm3 ▸ hm2 ▸ h1, hrinv⟩, hm1⟩

/-- C1 counterexample: the batch path of
`TradingCoordinator._handle_hot_cluster` checks `can_buy` for every
cluster member before any `record_buy` runs, so with a ceiling of 1
concurrent position a 2-token hot cluster yields 2 concurrently active
positions — the claimed invariant fails under the coordinator's actual
interleaving of the attempts. -/
theorem C1_counterexample :
    (Risk.handle_hot_cluster ⟨10, 5, 1, 0, 0, 0, []⟩ 0 ["A", "B"] 1
        (fun _ => true)).active_positions.length = 2 ∧
    (⟨10, 5, 1, 0, 0, 0, []⟩ : Risk.RiskState).max_concurrent_positions = 1 := by
  constructor
  · norm_num [Risk.handle_hot_cluster, Risk.can_buy, Risk.record_buy,
      Risk.reset_daily_if_needed]
  · rfl

/-- C1 (amended): for every sequence of buy attempts in which each
attempt's `can_buy`/`record_buy` pair runs atomically (the successful
purchase is recorded before the next attempt's check, as §4.5 of the
specification requires of callers), the active-position count never
exceeds the configured maximum and the recorded daily investment never
exceeds the configured daily maximum.  Under the coordinator's deferred
batch recording the ceilings can be exceeded (see the
counterexample). -/
theorem C1_amended (s : Risk.RiskState) (l : List Risk.Attempt)
    (hmax : 0 ≤ s.max_daily_investment) (hinv : Risk.ceilings_ok s) :
    Risk.ceilings_ok (Risk.run_attempts s l) := by
  induction l generalizing s with
  | nil => exact hinv
  | cons a rest ih =>
      have step := attempt_buy_preserves s a hmax hinv
      exact ih (Risk.attempt_buy s a) (step.2 ▸ hmax) step.1

/-- C1 amended witness: two atomic attempts against a ceiling of one
position; the second is rejected and the ceilings hold. -/
theorem C1_amended_witness :
    (0:ℚ) ≤ (⟨10, 5, 1, 0, 0, 0, []⟩ : Risk.RiskState).max_daily_investment ∧
    Risk.ceilings_ok (⟨10, 5, 1, 0, 0, 0, []⟩ : Risk.RiskState) ∧
    Risk.ceilings_ok (Risk.run_attempts ⟨10, 5, 1, 0, 0, 0, []⟩
      [⟨0, "A", 1, true⟩, ⟨0, "B", 1, true⟩]) :=
  ⟨by norm_num, by constructor <;> norm_num,
    C1_amended ⟨10, 5, 1, 0, 0, 0, []⟩ [⟨0, "A", 1, true⟩, ⟨0, "B", 1, true⟩]
      (by norm_num) (by constructor <;> norm_num)⟩

/-- Helper: processing a trace decomposes over append. -/
theorem seen_after_append (s : List String) (l1 l2 : List String) :
    Listener.seen_after s (l1 ++ l2) =
      Listener.seen_after (Listener.seen_after s l1) l2 := by
  simp [Listener.seen_after, List.foldl_append]

/-- Helper: unfolding one step of the invocation count. -/
theorem fired_count_cons (s : List String) (k e : String) (l : List String) :
    Listener.fired_count s k (e :: l) =
      (if (!(Listener.is_duplicate s e).1 && (e == k)) = true then 1 else 0) +
        Listener.fired_count (Listener.is_duplicate s e).2 k l := rfl

/-- Helper: handler-invocation counts decompose over append. -/
theorem fired_count_append (s : List String) (k : String) (l1 l2 : List String) :
    Listener.fired_count s k (l1 ++ l2) =
      Listener.fired_count s k l1 +
        Listener.fired_count (Listener.seen_after s l1) k l2 := by
  induction l1 generalizing s with
  | nil => simp [Listener.fired_count, Listener.seen_after]
  | cons e t ih =>
      simp only [List.cons_append, fired_count_cons, ih]
      simp [Listener.seen_after, Nat.add_assoc]

/-- Helper: deliveries of other keys never fire handlers for `k`. -/
theorem fired_count_no_k (s : List String) (k : String) (l : List String)
    (hk : k ∉ l) : Listener.fired_count s k l = 0 := by
  induction l generalizing s with
  | nil => rfl
  | cons e t ih =>
      rw [List.mem_cons, not_or] at hk
      have he : (e == k) = false := by
        simpa using fun h => hk.1 (h.symm)
      show (if _ then 1 else 0) + Listener.fired_count _ k t = 0
      rw [ih _ hk.2, he]
      simp

/-- Helper: processing a delivery of a different key cannot insert `k`
into the cache. -/
theorem not_mem_is_duplicate (s : List String) (e k : String) (hk : k ∉ s)
    (hne : e ≠ k) : k ∉ (Listener.is_duplicate s e).2 := by
  unfold Listener.is_duplicate
  by_cases hc : s.contains e
  · simp only [hc, if_true]
    exact hk
  · simp only [hc, Bool.false_eq_true, if_false]
    have hk2 : k ∉ s ++ [e] := by
      rw [List.mem_append]
      rintro (h | h)
      · exact hk h
      · rw [List.mem_singleton] at h
        exact hne h.symm
    split_ifs
    · exact fun hmem => hk2 (List.mem_of_mem_drop hmem)
    · exact hk2

/-- Helper: a key absent from the cache and from the trace stays
absent. -/
theorem not_mem_seen_after (s : List String) (l : List String) (k : String)
    (hk : k ∉ s) (hl : k ∉ l) : k ∉ Listener.seen_after s l := by
  induction l generalizing s with
  | nil => exact hk
  | cons e t ih =>
      rw [List.mem_cons, not_or] at hl
      exact ih _ (not_mem_is_duplicate s e k hk (fun h => hl.1 h.symm)) hl.2

/-- Helper: one delivery of `k` fires the handlers exactly when `k` is
not yet cached. -/
theorem fired_count_single (s : List String) (k : String) :
    Listener.fired_count s k [k] = if k ∈ s then 0 else 1 := by
  by_cases hc : k ∈ s
  · have : s.contains k = true := by simpa using hc
    simp [Listener.fired_count, Listener.is_duplicate, this, hc]
  · have : s.contains k = false := by simpa using hc
    simp [Listener.fired_count, Listener.is_duplicate, this, hc]

/-- C7: two deliveries of logs carrying the same (transaction hash,
log index) dedup key — with arbitrary other deliveries before and in
between — invoke the handlers for that key at most once, provided the
key is still within the cache's retention capacity (not evicted) at the
second delivery. -/
theorem C7_dedup_at_most_once (tx : String) (idx : Nat)
    (s0 pre mid : List String)
    (h0 : Listener.dedup_key tx idx ∉ s0)
    (hpre : Listener.dedup_key tx idx ∉ pre)
    (hmid : Listener.dedup_key tx idx ∉ mid)
    (hret : Listener.dedup_key tx idx ∈
      Listener.seen_after s0 (pre ++ [Listener.dedup_key tx idx] ++ mid)) :
    Listener.fired_count s0 (Listener.dedup_key tx idx)
      (pre ++ [Listener.dedup_key tx idx] ++ mid ++
        [Listener.dedup_key tx idx]) ≤ 1 := by
  rw [fired_count_append, fired_count_append, fired_count_append]
  rw [fired_count_no_k _ _ _ hpre, fired_count_no_k _ _ _ hmid]
  rw [fired_count_single, fired_count_single]
  rw [if_neg (not_mem_seen_after s0 pre _ h0 hpre), if_pos ?hm]
  case hm => exact hret

/-- C7 witness: the key "0xabc_0" delivered twice around an unrelated
delivery, starting from an empty cache. -/
theorem C7_dedup_at_most_once_witness :
    Listener.dedup_key "0xabc" 0 ∉ ([] : List String) ∧
    Listener.dedup_key "0xabc" 0 ∉ (["other_1"] : List String) ∧
    Listener.dedup_key "0xabc" 0 ∈
      Listener.seen_after [] ([] ++ [Listener.dedup_key "0xabc" 0] ++
        ["other_1"]) ∧
    Listener.fired_count [] (Listener.dedup_key "0xabc" 0)
      ([] ++ [Listener.dedup_key "0xabc" 0] ++ ["other_1"] ++
        [Listener.dedup_key "0xabc" 0]) ≤ 1 :=
  ⟨by decide, by decide, by decide,
    C7_dedup_at_most_once "0xabc" 0 [] [] ["other_1"] (by decide) (by decide)
      (by decide) (by decide)⟩

/-- Helper: the two bisection subranges concatenate exactly to the
original range. -/
theorem range'_split (f t : Nat) (hlt : f < t) :
    List.range' f ((f + t) / 2 - f + 1) ++
      List.range' ((f + t) / 2 + 1) (t - (f + t) / 2) =
      List.range' f (t - f + 1) := by
  have h := List.range'_append f ((f + t) / 2 - f + 1) (t - (f + t) / 2) 1
  simp only [one_mul] at h
  have e1 : f + ((f + t) / 2 - f + 1) = (f + t) / 2 + 1 := by omega
  have e2 : (t - (f + t) / 2) + ((f + t) / 2 - f + 1) = t - f + 1 := by omega
  rw [e1, e2] at h
  exact h

/-- Helper: the worst-case bisection of `[f, t]` fetches exactly the
single blocks `f, f+1, ..., t`, in order. -/
theorem bisect_leaves_eq (d : Nat) : ∀ f t, f ≤ t → t - f = d →
    Listener.bisect_leaves f t = List.range' f (t - f + 1) := by
  induction d using Nat.strong_induction_on with
  | _ d ih =>
    intro f t hft hd
    by_cases hc : t ≤ f
    · have heq : t = f := le_antisymm hc hft
      subst heq
      unfold Listener.bisect_leaves
      simp
    · push_neg at hc
      unfold Listener.bisect_leaves
      rw [if_neg (not_le.mpr hc)]
      dsimp only
      have hm1 : (f + t) / 2 - f < d := by omega
      have hm2 : t - ((f + t) / 2 + 1) < d := by omega
      rw [ih _ hm1 f ((f + t) / 2) (by omega) rfl,
        ih _ hm2 ((f + t) / 2 + 1) t (by omega) rfl]
      have e : t - ((f + t) / 2 + 1) + 1 = t - (f + t) / 2 := by omega
      rw [e]
      exact range'_split f t hc

/-- Helper: the worst-case bisection depth of `[f, t]` is at most
the ceiling log of the range size. -/
theorem bisect_depth_le (d : Nat) : ∀ f t, t - f = d →
    Listener.bisect_depth f t ≤ Nat.clog 2 (t - f + 1) := by
  induction d using Nat.strong_induction_on with
  | _ d ih =>
    intro f t hd
    by_cases hc : t ≤ f
    · unfold Listener.bisect_depth
      rw [if_pos hc]
      exact Nat.zero_le _
    · push_neg at hc
      unfold Listener.bisect_depth
      rw [if_neg (not_le.mpr hc)]
      dsimp only
      have h1 : Listener.bisect_depth f ((f + t) / 2) ≤
          Nat.clog 2 ((f + t) / 2 - f + 1) :=
        ih ((f + t) / 2 - f) (by omega) f ((f + t) / 2) rfl
      have h2 : Listener.bisect_depth ((f + t) / 2 + 1) t ≤
          Nat.clog 2 (t - ((f + t) / 2 + 1) + 1) :=
        ih (t - ((f + t) / 2 + 1)) (by omega) ((f + t) / 2 + 1) t rfl
      have hrec : Nat.clog 2 (t - f + 1) =
          Nat.clog 2 ((t - f + 2) / 2) + 1 := by
        have e : t - f + 1 + 2 - 1 = t - f + 2 := by omega
        rw [Nat.clog_of_two_le (by norm_num) (by omega), e]
      have hl : (f + t) / 2 - f + 1 ≤ (t - f + 2) / 2 := by omega
      have hr : t - ((f + t) / 2 + 1) + 1 ≤ (t - f + 2) / 2 := by omega
      have hmax : max (Listener.bisect_depth f ((f + t) / 2))
          (Listener.bisect_depth ((f + t) / 2 + 1) t) ≤
          Nat.clog 2 ((t - f + 2) / 2) :=
        max_le (le_trans h1 (Nat.clog_mono_right 2 hl))
          (le_trans h2 (Nat.clog_mono_right 2 hr))
      rw [hrec, Nat.add_comm]
      exact Nat.add_le_add_right hmax 1

/-- C5: under rate limiting at every level, the recursive bisection of
`_process_block_range` over `[f, t]` (a) collapses to exactly the single
blocks `f..t`, each fetched once, in order — no block omitted, none
fetched twice; (b) nests at most `clog 2 N` splits for a range of `N`
blocks; and (c) at each split the halves `[f, mid]` and `[mid+1, t]`
partition the range exactly and share no block. -/
theorem C5_bisection_terminates_partitions (f t : Nat) (h : f ≤ t) :
    Listener.bisect_leaves f t = List.range' f (t - f + 1) ∧
    Listener.bisect_depth f t ≤ Nat.clog 2 (t - f + 1) ∧
    (f < t →
      (List.range' f ((f + t) / 2 - f + 1) ++
        List.range' ((f + t) / 2 + 1) (t - (f + t) / 2) =
        List.range' f (t - f + 1)) ∧
      ∀ b : Nat, ¬(b ∈ List.range' f ((f + t) / 2 - f + 1) ∧
        b ∈ List.range' ((f + t) / 2 + 1) (t - (f + t) / 2))) := by
  refine ⟨bisect_leaves_eq (t - f) f t h rfl, bisect_depth_le (t - f) f t rfl,
    fun hlt => ⟨range'_split f t hlt, ?_⟩⟩
  intro b hb
  obtain ⟨hb1, hb2⟩ := hb
  rw [List.mem_range'_1] at hb1 hb2
  omega

/-- C5 witness: the range `[3, 10]` of 8 blocks. -/
theorem C5_bisection_witness :
    3 ≤ 10 ∧
    (Listener.bisect_leaves 3 10 = List.range' 3 (10 - 3 + 1) ∧
    Listener.bisect_depth 3 10 ≤ Nat.clog 2 (10 - 3 + 1) ∧
    (3 < 10 →
      (List.range' 3 ((3 + 10) / 2 - 3 + 1) ++
        List.range' ((3 + 10) / 2 + 1) (10 - (3 + 10) / 2) =
        List.range' 3 (10 - 3 + 1)) ∧
      ∀ b : Nat, ¬(b ∈ List.range' 3 ((3 + 10) / 2 - 3 + 1) ∧
        b ∈ List.range' ((3 + 10) / 2 + 1) (10 - (3 + 10) / 2)))) :=
  ⟨by decide, C5_bisection_terminates_partitions 3 10 (by decide)⟩

/-- Helper: a string of positive length is not empty. -/
theorem isEmpty_false_of_len {s : String} (h : 1 ≤ s.length) :
    s.isEmpty = false := by
  rw [Bool.eq_false_iff]
  intro hc
  rw [String.isEmpty_iff] at hc
  subst hc
  simp at h

/-- Helper: one `add_token` step on a single-bucket state when no entry
falls out of the window: the entry is appended, the flag becomes
"count reached threshold", and the returned signal is the claimed
one. -/
theorem add_token_step (cfg : Trend.TrendConfig) (P : String)
    (E : List (ℤ × String × String)) (flag : Bool)
    (a : ℤ × String × String)
    (hθ : 1 ≤ cfg.threshold)
    (hkey : Trend.clusterKeyOf cfg a.2.2 = P)
    (hlen : cfg.prefix_length ≤ a.2.2.length)
    (hK : 1 ≤ cfg.prefix_length)
    (hnoprune : ∀ e ∈ E, a.1 - 60 * cfg.window_minutes ≤ e.1)
    (hflag : flag = decide (cfg.threshold ≤ E.length)) :
    Trend.add_token cfg (Trend.stBucket P E flag) a.2.1 a.2.2 a.1 =
      ((if E.length + 1 < cfg.threshold then (false, [])
        else if E.length + 1 = cfg.threshold then
          (true, Trend.addrsOf (E ++ [a]))
        else (true, [a.2.1])),
       Trend.stBucket P (E ++ [a])
         (decide (cfg.threshold ≤ E.length + 1))) := by
  have hemp : a.2.2.isEmpty = false :=
    isEmpty_false_of_len (le_trans hK hlen)
  have hguard : ¬(a.2.2.isEmpty = true ∨ a.2.2.length < cfg.prefix_length) := by
    rw [hemp]
    simp only [Bool.false_eq_true, false_or, not_lt]
    exact hlen
  unfold Trend.add_token
  rw [if_neg hguard, hkey]
  dsimp only
  by_cases hE : E = []
  · subst hE
    have hf : flag = false := by
      rw [hflag]
      simp only [List.length_nil, decide_eq_false_iff_not]
      omega
    subst hf
    have hclean : Trend.cleanup_old_entries cfg (Trend.stBucket P [] false) P
        a.1 = Trend.stBucket P [] false := by
      unfold Trend.cleanup_old_entries
      simp [Trend.stBucket, findVal]
    rw [hclean]
    have hlook : lookupD (Trend.stBucket P [] false).symbol_clusters P [] =
        [] := by
      simp [Trend.stBucket, lookupD, findVal]
    rw [hlook]
    have hset : setKey (Trend.stBucket P [] false).symbol_clusters P
        ([] ++ [(a.1, a.2.1, a.2.2)]) = [(P, [(a.1, a.2.1, a.2.2)])] := by
      simp [Trend.stBucket, setKey]
    rw [hset]
    by_cases h1 : cfg.threshold = 1
    · rw [if_pos (by simp [h1])]
      rw [if_neg (by simp [Trend.stBucket])]
      rw [if_neg (by simp [h1]), if_pos (by simp [h1])]
      simp [Trend.stBucket, Trend.addrsOf, h1]
    · have hgt : 1 < cfg.threshold := by omega
      rw [if_neg (by simp; omega)]
      rw [if_pos (by simp; omega)]
      simp only [Trend.stBucket, List.nil_append]
      rw [decide_eq_false (by simp; omega)]
      simp
  · -- non-empty bucket: cleanup keeps everything
    have hEne : E.isEmpty = false := by
      cases E with
      | nil => exact absurd rfl hE
      | cons x t => rfl
    have hkeep : E.filter
        (fun e => decide (e.1 ≥ a.1 - 60 * cfg.window_minutes)) = E :=
      List.filter_eq_self.mpr (fun e he => decide_eq_true (hnoprune e he))
    have hclean : Trend.cleanup_old_entries cfg (Trend.stBucket P E flag) P
        a.1 = Trend.stBucket P E flag := by
      unfold Trend.cleanup_old_entries
      simp only [Trend.stBucket, hEne, Bool.false_eq_true, if_false, findVal,
        if_pos rfl, Option.isSome_some, if_true, lookupD, Option.getD_some,
        hkeep, setKey]
      by_cases hf : flag = true
      · have hth : ¬(E.length < cfg.threshold) := by
          rw [hflag] at hf
          simp at hf
          omega
        simp [hf, hth, hEne]
      · have hf' : flag = false := by
          cases flag
          · rfl
          · exact absurd rfl hf
        subst hf'
        split_ifs <;> simp_all
    rw [hclean]
    have hlook : lookupD (Trend.stBucket P E flag).symbol_clusters P [] = E := by
      simp [Trend.stBucket, hEne, lookupD, findVal]
    rw [hlook]
    have hset : setKey (Trend.stBucket P E flag).symbol_clusters P
        (E ++ [(a.1, a.2.1, a.2.2)]) = [(P, E ++ [(a.1, a.2.1, a.2.2)])] := by
      simp [Trend.stBucket, hEne, setKey]
    rw [hset]
    by_cases hth : (E ++ [(a.1, a.2.1, a.2.2)]).length ≥ cfg.threshold
    · rw [if_pos hth]
      have hth' : cfg.threshold ≤ E.length + 1 := by
        simpa using hth
      by_cases hf : flag = true
      · have hgt : cfg.threshold ≤ E.length := by
          rw [hflag] at hf
          simpa using hf
        subst hf
        rw [if_pos (by simp [Trend.stBucket])]
        rw [if_neg (by omega), if_neg (by omega)]
        rw [decide_eq_true (by omega : cfg.threshold ≤ E.length + 1)]
        simp [Trend.stBucket]
      · have hf' : flag = false := by
          cases flag
          · rfl
          · exact absurd rfl hf
        subst hf'
        have hlt : E.length < cfg.threshold := by
          by_contra hcon
          rw [eq_comm, decide_eq_false_iff_not] at hflag
          exact hflag (by omega)
        rw [if_neg (by simp [Trend.stBucket])]
        rw [if_neg (by omega), if_pos (by omega)]
        rw [decide_eq_true (by omega : cfg.threshold ≤ E.length + 1)]
        simp [Trend.stBucket, Trend.addrsOf]
    · rw [if_neg hth]
      have hth' : E.length + 1 < cfg.threshold := by
        have := hth
        simp at this
        omega
      have hf' : flag = false := by
        rw [hflag]
        simp only [decide_eq_false_iff_not]
        omega
      subst hf'
      rw [if_pos (by omega)]
      rw [decide_eq_false (by omega : ¬(cfg.threshold ≤ E.length + 1))]
      simp [Trend.stBucket]

/-- Helper: one step of the claimed signal pattern. -/
theorem expected_outputs_cons (threshold : Nat) (sofar : List String)
    (a : ℤ × String × String) (rest : List (ℤ × String × String)) :
    Trend.expected_outputs threshold sofar (a :: rest) =
      (if (sofar ++ [a.2.1]).length < threshold then (false, [])
       else if (sofar ++ [a.2.1]).length = threshold then
         (true, sofar ++ [a.2.1])
       else (true, [a.2.1])) ::
        Trend.expected_outputs threshold (sofar ++ [a.2.1]) rest := rfl

/-- Helper: feeding a same-key within-window stream into a single-bucket
state produces exactly the claimed signal pattern and accumulates the
entries. -/
theorem run_add_bucket (cfg : Trend.TrendConfig) (P : String)
    (L : List (ℤ × String × String)) :
    ∀ E : List (ℤ × String × String),
    1 ≤ cfg.threshold → 1 ≤ cfg.prefix_length →
    (∀ a ∈ L, Trend.clusterKeyOf cfg a.2.2 = P ∧
      cfg.prefix_length ≤ a.2.2.length) →
    (∀ a ∈ L, ∀ e ∈ E ++ L, a.1 - 60 * cfg.window_minutes ≤ e.1) →
    Trend.run_add cfg
        (Trend.stBucket P E (decide (cfg.threshold ≤ E.length))) L =
      (Trend.stBucket P (E ++ L)
          (decide (cfg.threshold ≤ E.length + L.length)),
       Trend.expected_outputs cfg.threshold (Trend.addrsOf E) L) := by
  induction L with
  | nil =>
      intro E hθ hK hsym ht
      simp [Trend.run_add, Trend.expected_outputs]
  | cons a rest ih =>
      intro E hθ hK hsym ht
      have hmem : a ∈ a :: rest := List.mem_cons_self a rest
      have hre : (E ++ [a]) ++ rest = E ++ a :: rest := by simp
      unfold Trend.run_add
      dsimp only
      rw [add_token_step cfg P E _ a hθ (hsym a hmem).1 (hsym a hmem).2 hK
        (fun e he => ht a hmem e (List.mem_append_left _ he)) rfl]
      have hlen1 : (E ++ [a]).length = E.length + 1 := by simp
      rw [show (decide (cfg.threshold ≤ E.length + 1)) =
        (decide (cfg.threshold ≤ (E ++ [a]).length)) by rw [hlen1]]
      rw [ih (E ++ [a]) hθ hK
        (fun b hb => hsym b (List.mem_cons_of_mem a hb))
        (fun b hb e he => ht b (List.mem_cons_of_mem a hb) e (hre ▸ he))]
      rw [expected_outputs_cons]
      have haddr : Trend.addrsOf (E ++ [a]) =
          Trend.addrsOf E ++ [a.2.1] := by
        simp [Trend.addrsOf]
      have hlen2 : (Trend.addrsOf E ++ [a.2.1]).length = E.length + 1 := by
        simp [Trend.addrsOf]
      rw [Prod.mk.injEq]
      constructor
      · rw [hre, hlen1]
        have he2 : E.length + 1 + rest.length = E.length + (a :: rest).length :=
          by simp only [List.length_cons]; omega
        rw [he2]
      · rw [haddr, hlen2, hlen1]

/-- Helper: an arrival after the whole bucket has aged out of the window
empties the bucket, clears the triggered flag, and returns not-hot
(for thresholds of at least 2). -/
theorem add_token_gap (cfg : Trend.TrendConfig) (P : String)
    (E : List (ℤ × String × String)) (flag : Bool)
    (a : ℤ × String × String)
    (hθ : 2 ≤ cfg.threshold)
    (hkey : Trend.clusterKeyOf cfg a.2.2 = P)
    (hlen : cfg.prefix_length ≤ a.2.2.length)
    (hK : 1 ≤ cfg.prefix_length)
    (hE : E ≠ [])
    (hprune : ∀ e ∈ E, e.1 < a.1 - 60 * cfg.window_minutes) :
    Trend.add_token cfg (Trend.stBucket P E flag) a.2.1 a.2.2 a.1 =
      ((false, []), Trend.stBucket P [a] false) := by
  have hemp : a.2.2.isEmpty = false :=
    isEmpty_false_of_len (le_trans hK hlen)
  have hguard : ¬(a.2.2.isEmpty = true ∨ a.2.2.length < cfg.prefix_length) := by
    rw [hemp]
    simp only [Bool.false_eq_true, false_or, not_lt]
    exact hlen
  have hEne : E.isEmpty = false := by
    cases E with
    | nil => exact absurd rfl hE
    | cons x t => rfl
  have hkeep : E.filter
      (fun e => decide (e.1 ≥ a.1 - 60 * cfg.window_minutes)) = [] := by
    rw [List.filter_eq_nil]
    intro e he
    simpa using not_le.mpr (hprune e he)
  have hclean : Trend.cleanup_old_entries cfg (Trend.stBucket P E flag) P
      a.1 = ⟨[], []⟩ := by
    unfold Trend.cleanup_old_entries
    simp only [Trend.stBucket, hEne, Bool.false_eq_true, if_false, findVal,
      if_pos rfl, Option.isSome_some, if_true, lookupD, Option.getD_some,
      hkeep, List.length_nil, List.isEmpty_nil, removeKey]
    rw [if_pos (by omega : (0:Nat) < cfg.threshold)]
    have herase : (if flag = true then [P] else []).erase P = [] := by
      by_cases hf : flag = true <;> simp [hf]
    rw [herase]
    simp
  unfold Trend.add_token
  rw [if_neg hguard, hkey]
  dsimp only
  rw [hclean]
  have hlook : lookupD (⟨[], []⟩ : Trend.TrendState).symbol_clusters P [] =
      [] := by
    simp [lookupD, findVal]
  rw [hlook]
  have hset : setKey (⟨[], []⟩ : Trend.TrendState).symbol_clusters P
      ([] ++ [(a.1, a.2.1, a.2.2)]) = [(P, [(a.1, a.2.1, a.2.2)])] := by
    simp [setKey]
  rw [hset]
  rw [if_neg (by simp; omega)]
  simp [Trend.stBucket]

/-- C6: for a stream of same-prefix, within-window arrivals into a fresh
tracker, `add_token` answers exactly as claimed: not-hot below the
threshold, hot with the full batch exactly on the call that reaches the
threshold, and hot with just the new address on every later arrival
while the bucket stays at or above threshold (conjunct 1); once the
whole bucket has aged out of the window, the next arrival empties it,
clears the triggered flag and returns not-hot (conjunct 2); and the
cluster can then re-trigger: a fresh within-window stream from the
re-armed state again follows the claimed pattern, full batch included
(conjunct 3). -/
theorem C6_cluster_trigger (cfg : Trend.TrendConfig) (P : String)
    (L : List (ℤ × String × String)) (x : ℤ × String × String)
    (L2 : List (ℤ × String × String))
    (hK : 1 ≤ cfg.prefix_length) (hθ : 2 ≤ cfg.threshold)
    (hsym1 : ∀ a ∈ L, Trend.clusterKeyOf cfg a.2.2 = P ∧
      cfg.prefix_length ≤ a.2.2.length)
    (ht1 : ∀ a ∈ L, ∀ e ∈ L, a.1 - 60 * cfg.window_minutes ≤ e.1)
    (hn : cfg.threshold ≤ L.length)
    (hkx : Trend.clusterKeyOf cfg x.2.2 = P)
    (hlx : cfg.prefix_length ≤ x.2.2.length)
    (hgap : ∀ e ∈ L, e.1 < x.1 - 60 * cfg.window_minutes)
    (hsym2 : ∀ a ∈ L2, Trend.clusterKeyOf cfg a.2.2 = P ∧
      cfg.prefix_length ≤ a.2.2.length)
    (ht2 : ∀ a ∈ L2, ∀ e ∈ [x] ++ L2,
      a.1 - 60 * cfg.window_minutes ≤ e.1) :
    (Trend.run_add cfg ⟨[], []⟩ L).2 =
      Trend.expected_outputs cfg.threshold [] L ∧
    Trend.add_token cfg (Trend.run_add cfg ⟨[], []⟩ L).1 x.2.1 x.2.2 x.1 =
      ((false, []), Trend.stBucket P [x] false) ∧
    (Trend.run_add cfg (Trend.stBucket P [x] false) L2).2 =
      Trend.expected_outputs cfg.threshold [x.2.1] L2 := by
  have h0 : (⟨[], []⟩ : Trend.TrendState) =
      Trend.stBucket P []
        (decide (cfg.threshold ≤ ([] : List (ℤ × String × String)).length)) := by
    rw [decide_eq_false (by simp; omega :
      ¬(cfg.threshold ≤ ([] : List (ℤ × String × String)).length))]
    simp [Trend.stBucket]
  have hrun1 := run_add_bucket cfg P L []
    (by omega) hK hsym1 (by simpa using ht1)
  constructor
  · rw [h0, hrun1]
    rfl
  constructor
  · rw [h0, hrun1]
    have hLne : L ≠ [] := by
      intro hc
      rw [hc] at hn
      simp at hn
      omega
    have hflag : decide (cfg.threshold ≤
        ([] : List (ℤ × String × String)).length + L.length) = true := by
      simp
      omega
    rw [hflag]
    rw [show (([] : List (ℤ × String × String)) ++ L) = L from by simp]
    exact add_token_gap cfg P L true x hθ hkx hlx hK hLne hgap
  · have h1 : Trend.stBucket P [x] false =
        Trend.stBucket P [x] (decide (cfg.threshold ≤
          ([x] : List (ℤ × String × String)).length)) := by
      rw [decide_eq_false (by simp; omega :
        ¬(cfg.threshold ≤ ([x] : List (ℤ × String × String)).length))]
    rw [h1, run_add_bucket cfg P L2 [x] (by omega) hK hsym2 ht2]
    rfl

/-- C6 witness: the spec's own example — threshold 3, 5-minute window,
4-character buckets; PEPE1..PEPE4 arrive within the window, PEPE5 after
a long gap, then PEPE6..PEPE7 refill the re-armed bucket. -/
theorem C6_cluster_trigger_witness :
    2 ≤ (⟨5, 3, 4⟩ : Trend.TrendConfig).threshold ∧
    ((Trend.run_add ⟨5, 3, 4⟩ ⟨[], []⟩
        [(0, "a1", "PEPE1"), (60, "a2", "PEPE2"), (120, "a3", "PEPE3"),
          (180, "a4", "PEPE4")]).2 =
      Trend.expected_outputs 3 []
        [(0, "a1", "PEPE1"), (60, "a2", "PEPE2"), (120, "a3", "PEPE3"),
          (180, "a4", "PEPE4")] ∧
    Trend.add_token ⟨5, 3, 4⟩
        (Trend.run_add ⟨5, 3, 4⟩ ⟨[], []⟩
          [(0, "a1", "PEPE1"), (60, "a2", "PEPE2"), (120, "a3", "PEPE3"),
            (180, "a4", "PEPE4")]).1 "a5" "PEPE5" 1000 =
      ((false, []), Trend.stBucket "PEPE" [(1000, "a5", "PEPE5")] false) ∧
    (Trend.run_add ⟨5, 3, 4⟩
        (Trend.stBucket "PEPE" [(1000, "a5", "PEPE5")] false)
        [(1060, "a6", "PEPE6"), (1120, "a7", "PEPE7")]).2 =
      Trend.expected_outputs 3 ["a5"]
        [(1060, "a6", "PEPE6"), (1120, "a7", "PEPE7")]) :=
  ⟨by decide,
    C6_cluster_trigger ⟨5, 3, 4⟩ "PEPE"
      [(0, "a1", "PEPE1"), (60, "a2", "PEPE2"), (120, "a3", "PEPE3"),
        (180, "a4", "PEPE4")]
      (1000, "a5", "PEPE5")
      [(1060, "a6", "PEPE6"), (1120, "a7", "PEPE7")]
      (by decide) (by decide) (by decide) (by decide) (by decide) (by decide)
      (by decide) (by decide) (by decide) (by decide)⟩

/-- C2 counterexample: with thresholds misconfigured to overlap
(take-profit +10%, stop-loss +50%), a price update to 1.3 on a holding
position entered at 1.0 satisfies both exit rules simultaneously, yet
the action taken is the take-profit partial sell (status becomes
`partial_sold`, 9 of 10 units sold), not the stop-loss sell-all. -/
theorem C2_counterexample :
    (((13:ℚ)/10 - Fix.posHold.entry_price) / Fix.posHold.entry_price * 100 ≥
        Fix.cfgOverlap.take_profit_pct ∧
      ((13:ℚ)/10 - Fix.posHold.entry_price) / Fix.posHold.entry_price * 100 ≤
        Fix.cfgOverlap.stop_loss_pct) ∧
    (Position.on_price_update Fix.cfgOverlap Fix.trackerHold "T" (13/10) 1
        (some "0xsell")).2 = [.sellCall "T" 9] ∧
    (findVal (Position.on_price_update Fix.cfgOverlap Fix.trackerHold "T"
        (13/10) 1 (some "0xsell")).1.positions "T").map Position.Pos.status =
      some .partialSold := by
  refine ⟨⟨by norm_num [Fix.posHold, Fix.cfgOverlap], by norm_num [Fix.posHold, Fix.cfgOverlap]⟩, ?_, ?_⟩ <;>
    norm_num [Position.on_price_update, Position.check_initial_position,
      Position.sell_partial, Fix.trackerHold, Fix.posHold, Fix.cfgOverlap,
      findVal, updateKey, Position.gas_per_tx]

/-- C2 (amended): at a single exit-rule evaluation in `holding`,
take-profit is checked before stop-loss; for a price update whose PnL
satisfies both (misconfigured) thresholds, the take-profit partial sell
is taken, not the stop-loss sell-all. -/
theorem C2_amended (cfg : Position.StrategyConfig) (s : Position.TrackerState)
    (token : String) (pos : Position.Pos) (price now : ℚ) (tx : String)
    (hfind : findVal s.positions token = some pos)
    (hentry : pos.entry_price ≠ 0)
    (hstatus : pos.status = .holding)
    (htp : (price - pos.entry_price) / pos.entry_price * 100 ≥
      cfg.take_profit_pct)
    (hsl : (price - pos.entry_price) / pos.entry_price * 100 ≤
      cfg.stop_loss_pct)
    (hamt : 0 < ⌊pos.remaining_amount * (cfg.take_profit_sell_pct / 100)⌋) :
    (Position.on_price_update cfg s token price now (some tx)).2 =
      [.sellCall token
        ((⌊pos.remaining_amount * (cfg.take_profit_sell_pct / 100)⌋ : ℤ) : ℚ)] ∧
    (findVal (Position.on_price_update cfg s token price now (some tx)).1.positions
        token).map Position.Pos.status = some .partialSold := by
  have hamt' : ¬(⌊pos.remaining_amount * (cfg.take_profit_sell_pct / 100)⌋ ≤ 0) :=
    not_le.mpr hamt
  have hfind1 : findVal (updateKey s.positions token
      (fun p => { p with last_price := some price })) token =
      some { pos with last_price := some price } := by
    rw [findVal_updateKey_self, hfind]
    rfl
  unfold Position.on_price_update
  rw [hfind]
  simp only [hstatus, hentry, if_neg hentry, ite_false]
  unfold Position.check_initial_position
  rw [hfind1]
  simp only [if_pos htp]
  unfold Position.sell_partial
  rw [hfind1]
  simp only [if_neg hamt']
  refine ⟨by trivial, ?_⟩
  rw [findVal_updateKey_self, hfind1]
  rfl

/-- C2 amended witness: the concrete overlap scenario. -/
theorem C2_amended_witness :
    findVal Fix.trackerHold.positions "T" = some Fix.posHold ∧
    ((13:ℚ)/10 - Fix.posHold.entry_price) / Fix.posHold.entry_price * 100 ≥
      Fix.cfgOverlap.take_profit_pct ∧
    ((13:ℚ)/10 - Fix.posHold.entry_price) / Fix.posHold.entry_price * 100 ≤
      Fix.cfgOverlap.stop_loss_pct ∧
    ((Position.on_price_update Fix.cfgOverlap Fix.trackerHold "T" (13/10) 1
        (some "0xsell")).2 =
      [.sellCall "T"
        ((⌊Fix.posHold.remaining_amount *
          (Fix.cfgOverlap.take_profit_sell_pct / 100)⌋ : ℤ) : ℚ)] ∧
    (findVal (Position.on_price_update Fix.cfgOverlap Fix.trackerHold "T"
        (13/10) 1 (some "0xsell")).1.positions "T").map Position.Pos.status =
      some .partialSold) :=
  ⟨rfl, by norm_num [Fix.posHold, Fix.cfgOverlap],
    by norm_num [Fix.posHold, Fix.cfgOverlap],
    C2_amended Fix.cfgOverlap Fix.trackerHold "T" Fix.posHold (13/10) 1 "0xsell"
      rfl (by norm_num [Fix.posHold]) rfl
      (by norm_num [Fix.posHold, Fix.cfgOverlap])
      (by norm_num [Fix.posHold, Fix.cfgOverlap])
      (by norm_num [Fix.posHold, Fix.cfgOverlap])⟩

/-- C9: a position entered at price 1.0 (take-profit 200%,
take-profit-sell 90%, the default strategy) receiving a trade event at
price 3.0 with a succeeding sell transitions to `partial_sold`, keeps
exactly 10% of the original amount, and resets the tracked peak price
(and first-sell price) to 3.0.  The amount is `10 * k` wei so that the
90% tranche is a whole number of wei, as `int()` truncates. -/
theorem C9_take_profit_scenario (k : Nat) (hk : 1 ≤ k)
    (token tx tx2 : String) (inv fee now now2 : ℚ) :
    ((Position.on_price_update Position.defaultStrategy
        (Position.add_position ⟨[], 0, 0, 0, 0, 0, 0⟩ token tx 1 (10 * (k:ℚ))
          inv fee now)
        token 3 now2 (some tx2)).2 =
      [.sellCall token ((9 * k : Nat) : ℚ)]) ∧
    ((findVal (Position.on_price_update Position.defaultStrategy
        (Position.add_position ⟨[], 0, 0, 0, 0, 0, 0⟩ token tx 1 (10 * (k:ℚ))
          inv fee now)
        token 3 now2 (some tx2)).1.positions token).map
          (fun p => (p.status, p.remaining_amount, p.peak_price,
            p.first_sell_price)) =
      some (.partialSold, ((k : ℚ)), 3, some 3)) := by
  have hpos : (Position.add_position ⟨[], 0, 0, 0, 0, 0, 0⟩ token tx 1
      (10 * (k:ℚ)) inv fee now).positions =
      [(token, ({ token_address := token, entry_price := 1,
                  total_amount := 10 * (k:ℚ), remaining_amount := 10 * (k:ℚ),
                  bnb_invested := inv,
                  total_cost := inv + fee + Position.gas_per_tx,
                  buy_time := now, buy_tx_hash := tx, status := .holding,
                  first_sell_price := none, peak_price := 1,
                  last_price := none } : Position.Pos))] := by
    simp [Position.add_position, setKey]
  have hfloor : ⌊(10 * (k:ℚ)) *
      (Position.defaultStrategy.take_profit_sell_pct / 100)⌋ = ((9 * k : Nat) : ℤ) := by
    have h0 : (10 * (k:ℚ)) *
        (Position.defaultStrategy.take_profit_sell_pct / 100) = ((9 * k : Nat) : ℚ) := by
      show (10 * (k:ℚ)) * ((90 : ℚ) / 100) = ((9 * k : Nat) : ℚ)
      push_cast
      ring
    rw [h0, Int.floor_natCast]
  have hfind : findVal (Position.add_position ⟨[], 0, 0, 0, 0, 0, 0⟩ token tx 1
      (10 * (k:ℚ)) inv fee now).positions token =
      some ({ token_address := token, entry_price := 1,
              total_amount := 10 * (k:ℚ), remaining_amount := 10 * (k:ℚ),
              bnb_invested := inv,
              total_cost := inv + fee + Position.gas_per_tx,
              buy_time := now, buy_tx_hash := tx, status := .holding,
              first_sell_price := none, peak_price := 1,
              last_price := none } : Position.Pos) := by
    rw [hpos]
    simp [findVal]
  rw [take_profit_step Position.defaultStrategy _ token _ 3 now2 tx2 hfind
    (by norm_num) rfl (by norm_num [Position.defaultStrategy])
    (by rw [hfloor]; exact_mod_cast Nat.pos_of_ne_zero (by omega))]
  constructor
  · simp only [hfloor]
    norm_num
  · rw [hpos]
    rw [findVal_updateKey_self, findVal_updateKey_self]
    simp only [findVal, if_pos rfl, Option.map_some, Option.map_map]
    simp only [hfloor]
    refine congrArg some ?_
    refine Prod.ext rfl (Prod.ext ?_ rfl)
    show 10 * (k:ℚ) - (((9 * k : Nat) : ℤ) : ℚ) = (k : ℚ)
    push_cast
    ring

/-- C9 witness: the scenario at a concrete amount of 10 wei. -/
theorem C9_take_profit_scenario_witness :
    1 ≤ 1 ∧
    (((Position.on_price_update Position.defaultStrategy
        (Position.add_position ⟨[], 0, 0, 0, 0, 0, 0⟩ "T" "0xbuy" 1
          (10 * ((1:Nat):ℚ)) 0 0 0)
        "T" 3 7 (some "0xsell")).2 =
      [.sellCall "T" ((9 * 1 : Nat) : ℚ)]) ∧
    ((findVal (Position.on_price_update Position.defaultStrategy
        (Position.add_position ⟨[], 0, 0, 0, 0, 0, 0⟩ "T" "0xbuy" 1
          (10 * ((1:Nat):ℚ)) 0 0 0)
        "T" 3 7 (some "0xsell")).1.positions "T").map
          (fun p => (p.status, p.remaining_amount, p.peak_price,
            p.first_sell_price)) =
      some (.partialSold, (((1:Nat) : ℚ)), 3, some 3))) :=
  ⟨le_refl 1, C9_take_profit_scenario 1 (le_refl 1) "T" "0xbuy" "0xsell" 0 0 0 7⟩

/-- C3 counterexample: with the default configuration (address check
enabled), a TokenCreate event rejected by the keyword blacklist leaves
the creator history untouched — the (timestamp, token) entry is not
recorded for this token, although `should_buy` evaluated it. -/
theorem C3_counterexample :
    Filter.defaultConfig.enable_address_check = true ∧
    ((Filter.should_buy Filter.defaultConfig ⟨[], []⟩ Fix.tokRug 0
        (some .err)).1).1 = false ∧
    (Filter.should_buy Filter.defaultConfig ⟨[], []⟩ Fix.tokRug 0
        (some .err)).2.creator_history = [] := by
  refine ⟨rfl, ?_, ?_⟩ <;> decide

/-- C3 (amended): the creator history entry is recorded before the
burst-creation and batch-creation checks run, and it is recorded whether
or not those checks (or the reputation probe) subsequently reject — but
only for tokens that reach the creator stage, that is, when the address
check is enabled, all basic checks (name/symbol length, keyword
blacklist, supply bounds, liquidity, liquidity ratio) passed, and the
creator is not already blacklisted.  Tokens rejected earlier are not
recorded. -/
theorem C3_amended (cfg : Filter.FilterConfig) (st : Filter.FilterState)
    (info : Filter.TokenInfo) (now : ℤ) (probe : Option Filter.ProbeResult)
    (hbasic : Filter.basic_checks cfg info = none)
    (hen : cfg.enable_address_check = true)
    (hbl : st.creator_blacklist.contains info.creator = false) :
    lookupD (Filter.should_buy cfg st info now probe).2.creator_history
        info.creator [] =
      Filter.record_creator (lookupD st.creator_history info.creator [])
        now info.token_address := by
  unfold Filter.should_buy
  rw [hbasic]
  simp only [hen, if_true, hbl, Bool.false_eq_true, if_false]
  split
  · exact lookupD_setKey_self _ _ _ _
  · split
    · exact lookupD_setKey_self _ _ _ _
    · cases probe with
      | none => exact lookupD_setKey_self _ _ _ _
      | some p =>
          by_cases hrep : (Filter.check_wallet_reputation cfg p).1 = true
          · simp only [hrep, if_true]
            exact lookupD_setKey_self _ _ _ _
          · simp only [Bool.not_eq_true] at hrep
            simp only [hrep, Bool.false_eq_true, if_false]
            exact lookupD_setKey_self _ _ _ _

/-- C3 amended witness: a token passing the basic checks whose creator
launched another token one minute earlier; the burst check rejects it,
yet the new history entry is recorded. -/
theorem C3_amended_witness :
    Filter.basic_checks Fix.cfgPlain Fix.tokPepe = none ∧
    Fix.cfgPlain.enable_address_check = true ∧
    Fix.stC.creator_blacklist.contains Fix.tokPepe.creator = false ∧
    lookupD (Filter.should_buy Fix.cfgPlain Fix.stC Fix.tokPepe 60
        none).2.creator_history Fix.tokPepe.creator [] =
      Filter.record_creator (lookupD Fix.stC.creator_history
        Fix.tokPepe.creator []) 60 Fix.tokPepe.token_address :=
  ⟨by norm_num [Filter.basic_checks, Fix.cfgPlain, Fix.tokPepe]; decide, rfl, rfl,
    C3_amended Fix.cfgPlain Fix.stC Fix.tokPepe 60 none
      (by norm_num [Filter.basic_checks, Fix.cfgPlain, Fix.tokPepe]; decide)
      rfl rfl⟩

/-- C8: a raised reputation probe yields "not suspicious", and
`should_buy` run with a failing probe returns exactly what it returns
with the reputation check absent — a probe failure alone never causes a
rejection. -/
theorem C8_probe_failure_never_rejects (cfg : Filter.FilterConfig)
    (st : Filter.FilterState) (info : Filter.TokenInfo) (now : ℤ) :
    Filter.check_wallet_reputation cfg .err = (false, "Check skipped") ∧
    Filter.should_buy cfg st info now (some .err) =
      Filter.should_buy cfg st info now none := by
  refine ⟨rfl, ?_⟩
  unfold Filter.should_buy
  cases Filter.basic_checks cfg info with
  | some r => rfl
  | none =>
    by_cases he : cfg.enable_address_check = true
    · simp only [he, if_true]
      by_cases hb : st.creator_blacklist.contains info.creator = true
      · simp only [hb, if_true]
      · simp only [Bool.not_eq_true] at hb
        simp only [hb, Bool.false_eq_true, if_false]
        split
        · rfl
        · split
          · rfl
          · rfl
    · simp only [Bool.not_eq_true] at he
      simp only [he, Bool.false_eq_true, if_false]

/-- C10: a price update for a tracked position that has no confirmed
fill yet (entry price still zero) records the price in `last_price` and
does nothing else: no exit rule runs, no sell is submitted, and every
other component of the tracker state is unchanged. -/
theorem C10_uninitialized_update_only_records_price
    (cfg : Position.StrategyConfig) (s : Position.TrackerState)
    (token : String) (pos : Position.Pos) (price now : ℚ)
    (sell_result : Option String)
    (hfind : findVal s.positions token = some pos)
    (hzero : pos.entry_price = 0) :
    Position.on_price_update cfg s token price now sell_result =
      ({ s with positions := (updateKey s.positions token
          (fun p => { p with last_price := some price })) }, []) := by
  unfold Position.on_price_update
  rw [hfind]
  simp [hzero]

/-- C10 witness at a concrete pending position. -/
theorem C10_uninitialized_update_witness :
    findVal [("T", Fix.posZero)] "T" = some Fix.posZero ∧
    Fix.posZero.entry_price = 0 ∧
    Position.on_price_update Position.defaultStrategy Fix.trackerZero "T" 2 5 none =
      ({ Fix.trackerZero with positions := (updateKey Fix.trackerZero.positions "T"
          (fun p => { p with last_price := some (2:ℚ) })) }, []) :=
  ⟨rfl, rfl,
    C10_uninitialized_update_only_records_price Position.defaultStrategy
      Fix.trackerZero "T" Fix.posZero 2 5 none rfl rfl⟩

end Meme
